import Mathlib

/-!
Verification development for the LTO archive management system
(src/lto_archive_manager.py).  The Python source is shallowly embedded:
the SQLite-backed index (DatabaseManager) becomes a record of lists, each
method a pure function on it; the Analyzer, Packer, Backup orchestrator,
Retriever and TapeManager become folds over explicit input lists.  SQLite
text comparison (BINARY collation) and LIKE matching are modelled
byte-for-byte on code points; the external Bulk Transfer Service
(robocopy) is modelled by its documented contract: copy every file whose
destination is missing or differs in size, and report the sum of the
copied sizes.
-/

namespace LTO

/-- Row of the tapes table (DatabaseManager._init_schema).  The
date_formatted timestamp is kept as the ISO string SQLite stores;
total_capacity is the optional capacity in GB; used_space starts at 0
(column default) and only the embedded operations change it. -/
structure Tape where
  volume_label : String
  date_formatted : String
  total_capacity : Option Nat
  used_space : Nat
  deriving DecidableEq, Repr

/-- Row of the files_index table (DatabaseManager._init_schema). -/
structure FileRecord where
  file_id : Nat
  file_name : String
  original_path : String
  file_size_bytes : Nat
  file_hash : String
  backup_date : String
  tape_label : String
  is_packed : Bool
  container_name : Option String
  stored_path : String
  deriving DecidableEq, Repr

/-- State of the SQLite database: both tables plus the AUTOINCREMENT
counter for files_index.file_id. -/
structure DB where
  tapes : List Tape
  files : List FileRecord
  next_id : Nat
  deriving DecidableEq, Repr

/-- Empty database, as produced by _init_schema on a fresh file. -/
def DB.empty : DB := { tapes := [], files := [], next_id := 1 }

/-- DatabaseManager.tape_exists: SELECT 1 FROM tapes WHERE volume_label = ?. -/
def tapeExists (db : DB) (volume_label : String) : Bool :=
  db.tapes.any (fun t => t.volume_label = volume_label)

/-- DatabaseManager.register_tape: INSERT INTO tapes; the UNIQUE
constraint on volume_label makes the insert raise IntegrityError when the
label is already present, in which case the method returns False and the
database is untouched.  On success it returns True.  The now argument
stands for datetime.now().isoformat(). -/
def registerTape (db : DB) (volume_label : String) (capacity_gb : Option Nat)
    (now : String) : DB × Bool :=
  if tapeExists db volume_label then (db, false)
  else
    ({ db with
        tapes := db.tapes ++
          [{ volume_label := volume_label, date_formatted := now,
             total_capacity := capacity_gb, used_space := 0 }] },
     true)

/-- DatabaseManager.delete_tape: DELETE FROM files_index WHERE tape_label = ?
followed by DELETE FROM tapes WHERE volume_label = ?. -/
def deleteTape (db : DB) (volume_label : String) : DB :=
  { db with
      files := db.files.filter (fun r => r.tape_label ≠ volume_label),
      tapes := db.tapes.filter (fun t => t.volume_label ≠ volume_label) }

/-- DatabaseManager.insert_file: one INSERT INTO files_index, committed;
backup_date is datetime.now().isoformat(), passed here as now. -/
def insertFile (db : DB) (file_name original_path : String)
    (file_size_bytes : Nat) (file_hash : String) (tape_label : String)
    (is_packed : Bool) (container_name : Option String)
    (stored_path : String) (now : String) : DB :=
  { db with
      files := db.files ++
        [{ file_id := db.next_id, file_name := file_name,
           original_path := original_path,
           file_size_bytes := file_size_bytes, file_hash := file_hash,
           backup_date := now, tape_label := tape_label,
           is_packed := is_packed, container_name := container_name,
           stored_path := stored_path }],
      next_id := db.next_id + 1 }

/-- DatabaseManager.update_tape_used_space: UPDATE tapes SET
used_space = COALESCE(used_space, 0) + ? WHERE volume_label = ?.  The one
call site passes a positive byte count, so bytes_added is a Nat here. -/
def updateUsedSpace (db : DB) (volume_label : String) (bytes_added : Nat) : DB :=
  { db with
      tapes := db.tapes.map (fun t =>
        if t.volume_label = volume_label then
          { t with used_space := t.used_space + bytes_added }
        else t) }

/-- Comparison of two code-point lists exactly as SQLite BINARY collation
compares the corresponding text values (memcmp on the encoded bytes; for
the ASCII data at hand code-point order and byte order coincide). -/
def charsLe : List Char → List Char → Bool
  | [], _ => true
  | _ :: _, [] => false
  | a :: as, b :: bs =>
    if a.toNat < b.toNat then true
    else if b.toNat < a.toNat then false
    else charsLe as bs

/-- SQLite text comparison a <= b under BINARY collation, as applied when
files_index.backup_date (stored text) is compared with a bound parameter. -/
def sqliteTextLe (a b : String) : Bool :=
  charsLe a.toList b.toList

/-- Lower-casing of an ASCII character, as SQLite LIKE applies to both
operands by default (case-insensitive for ASCII). -/
def foldAscii (c : Char) : Char :=
  if 'A'.toNat ≤ c.toNat ∧ c.toNat ≤ 'Z'.toNat then
    Char.ofNat (c.toNat + 32)
  else c

/-- Scan for the percent wildcard of SQLite LIKE: try the continuation
on every suffix of the string. -/
def percentScan (k : List Char → Bool) : List Char → Bool
  | [] => k []
  | c :: s1 => k (c :: s1) || percentScan k s1

/-- SQLite LIKE matching on code-point lists: percent matches any run,
underscore any single character, anything else itself up to ASCII case. -/
def likeMatch : List Char → List Char → Bool
  | [] => fun s => s.isEmpty
  | '%' :: ps => percentScan (likeMatch ps)
  | '_' :: ps => fun s =>
    match s with
    | [] => false
    | _ :: s1 => likeMatch ps s1
  | p :: ps => fun s =>
    match s with
    | [] => false
    | c :: s1 => if foldAscii p = foldAscii c then likeMatch ps s1 else false

/-- String form of LIKE: column LIKE pattern. -/
def sqlLike (column pattern : String) : Bool :=
  likeMatch pattern.toList column.toList

/-- Translation of a search query into a LIKE pattern
(DatabaseManager.search_files): star becomes percent, question mark
becomes underscore, and a translated pattern holding neither percent nor
underscore is wrapped in percents for a substring match. -/
def toLikePattern (name_query : String) : String :=
  let pattern := String.mk (name_query.toList.map (fun c =>
    if c = '*' then '%' else if c = '?' then '_' else c))
  if pattern.toList.all (fun c => c ≠ '%' ∧ c ≠ '_') then
    "%" ++ pattern ++ "%"
  else pattern

/-- WHERE clause of DatabaseManager.search_files for one row: the
name_query adds file_name LIKE pattern when truthy (Python treats None
and the empty string alike), date_from adds backup_date >= date_from, and
date_to adds backup_date <= date_to plus the literal end-of-day suffix. -/
def searchMatch (name_query date_from date_to : Option String)
    (r : FileRecord) : Bool :=
  (match name_query with
   | none => true
   | some q => if q = "" then true else sqlLike r.file_name (toLikePattern q)) &&
  (match date_from with
   | none => true
   | some d => if d = "" then true else sqliteTextLe d r.backup_date) &&
  (match date_to with
   | none => true
   | some d => if d = "" then true else sqliteTextLe r.backup_date (d ++ " 23:59:59"))

/-- DatabaseManager.search_files: the rows satisfying the WHERE clause.
The trailing ORDER BY backup_date DESC only permutes the result set; the
properties below are about which rows are returned, so the rows are kept
in table order here. -/
def searchFiles (db : DB) (name_query date_from date_to : Option String) :
    List FileRecord :=
  db.files.filter (searchMatch name_query date_from date_to)

/-- One file met while walking a directory tree with os.walk: its
basename, its path relative to the walked root (os.path.relpath), its
absolute path, its size in bytes and its SHA-256 content hash.  The walk
order is the list order. -/
structure SrcFile where
  name : String
  rel : String
  path : String
  size : Nat
  hash : String
  deriving DecidableEq, Repr

/-- Report accumulated by LTOAnalyzer.analyze.  The Python code tracks
total_size_mb as a float running sum; the byte total is kept here.  Files
whose size cannot be read (OSError) are represented as none in the input
and touch no counter. -/
structure AnalyzerReport where
  tiny : Nat
  small : Nat
  medium : Nat
  large : Nat
  huge : Nat
  total_files : Nat
  total_size_bytes : Nat
  files_under_threshold : Nat
  deriving DecidableEq, Repr

def AnalyzerReport.init : AnalyzerReport :=
  { tiny := 0, small := 0, medium := 0, large := 0, huge := 0,
    total_files := 0, total_size_bytes := 0, files_under_threshold := 0 }

/-- Processing of one walk entry by LTOAnalyzer.analyze.  size_mb is
size_bytes divided by 2 to the 20th as a real number, so the float
comparisons size_mb < k translate to size_bytes < k times 2 to the 20th;
threshold_mb is the configured threshold in MB (a natural number here,
where the arithmetic is exact). -/
def analyzeStep (threshold_mb : Nat) (r : AnalyzerReport) (sz : Option Nat) :
    AnalyzerReport :=
  match sz with
  | none => r
  | some size_bytes =>
    let r := { r with total_files := r.total_files + 1,
                      total_size_bytes := r.total_size_bytes + size_bytes }
    let r :=
      if size_bytes < 1024 ^ 2 then { r with tiny := r.tiny + 1 }
      else if size_bytes < 10 * 1024 ^ 2 then { r with small := r.small + 1 }
      else if size_bytes < 100 * 1024 ^ 2 then { r with medium := r.medium + 1 }
      else if size_bytes < 1024 * 1024 ^ 2 then { r with large := r.large + 1 }
      else { r with huge := r.huge + 1 }
    if size_bytes < threshold_mb * 1024 ^ 2 then
      { r with files_under_threshold := r.files_under_threshold + 1 }
    else r

/-- LTOAnalyzer.analyze over a whole walk: sizes is one entry per file
found, none standing for a file whose getsize raised OSError. -/
def analyzeRun (threshold_mb : Nat) (sizes : List (Option Nat)) :
    AnalyzerReport :=
  sizes.foldl (analyzeStep threshold_mb) AnalyzerReport.init

/-- Recommendation returned by LTOAnalyzer.analyze: pack when the ratio
of under-threshold files strictly exceeds 0.3 (with ratio 0 for an empty
tree). -/
def recommendPack (r : AnalyzerReport) : Bool :=
  10 * r.files_under_threshold > 3 * r.total_files

/-- Per-file metadata dict produced by LTOPacker.run.  Loose entries
carry no file_hash key, hence the Option; container_name is set only on
packed entries. -/
structure Meta where
  file_name : String
  original_path : String
  file_size_bytes : Nat
  file_hash : Option String
  is_packed : Bool
  container_name : Option String
  stored_path : String
  deriving DecidableEq, Repr

/-- Zero-padded bundle file name Bundle_XXX.zip built from zip_idx with
the 03d format. -/
def bundleName (zip_idx : Nat) : String :=
  let digits :=
    if zip_idx < 10 then "00" ++ toString zip_idx
    else if zip_idx < 100 then "0" ++ toString zip_idx
    else toString zip_idx
  "Bundle_" ++ digits ++ ".zip"

/-- One container sealed by LTOPacker.run: its index, the sum of the
sizes of the files streamed into it, and how many files it received. -/
structure SealedZip where
  idx : Nat
  content_bytes : Nat
  nfiles : Nat
  deriving DecidableEq, Repr

/-- Loop state of LTOPacker.run. -/
structure PackerState where
  zip_idx : Nat
  current_zip_size : Nat
  files_in_current_zip : Nat
  sealed : List SealedZip
  metadata : List Meta
  total_packed : Nat
  total_loose : Nat
  deriving DecidableEq, Repr

def PackerState.init : PackerState :=
  { zip_idx := 1, current_zip_size := 0, files_in_current_zip := 0,
    sealed := [], metadata := [], total_packed := 0, total_loose := 0 }

/-- Processing of one walked file by LTOPacker.run.  The float
comparisons of the source, fsize_mb < threshold_mb for the threshold and
current_zip_size + fsize > max_zip_size_gb times 2 to the 30th times
0.99 for the rollover, are translated to the exact equivalents over
natural-number parameters.  A file under threshold first rolls the
bundle over when it would not fit, then is streamed into the current
bundle; a file at or above threshold is staged loose via a file-level
copy. -/
def packStep (threshold_mb max_zip_size_gb : Nat) (st : PackerState)
    (f : SrcFile) : PackerState :=
  if f.size < threshold_mb * 1024 ^ 2 then
    let st :=
      if 100 * (st.current_zip_size + f.size) >
          99 * (max_zip_size_gb * 1024 ^ 3) then
        { st with
            sealed := st.sealed ++
              [{ idx := st.zip_idx, content_bytes := st.current_zip_size,
                 nfiles := st.files_in_current_zip }],
            zip_idx := st.zip_idx + 1,
            current_zip_size := 0, files_in_current_zip := 0 }
      else st
    { st with
        current_zip_size := st.current_zip_size + f.size,
        files_in_current_zip := st.files_in_current_zip + 1,
        total_packed := st.total_packed + 1,
        metadata := st.metadata ++
          [{ file_name := f.name, original_path := f.path,
             file_size_bytes := f.size, file_hash := some f.hash,
             is_packed := true,
             container_name := some (bundleName st.zip_idx),
             stored_path := f.rel }] }
  else
    { st with
        total_loose := st.total_loose + 1,
        metadata := st.metadata ++
          [{ file_name := f.name, original_path := f.path,
             file_size_bytes := f.size, file_hash := none,
             is_packed := false, container_name := none,
             stored_path := f.rel }] }

/-- End of the walk in LTOPacker.run: a non-empty current bundle is
sealed; an empty trailing bundle is closed and its stub file removed, so
it is not recorded as a sealed container. -/
def packFinish (st : PackerState) : PackerState :=
  if st.files_in_current_zip > 0 then
    { st with
        sealed := st.sealed ++
          [{ idx := st.zip_idx, content_bytes := st.current_zip_size,
             nfiles := st.files_in_current_zip }],
        current_zip_size := 0, files_in_current_zip := 0 }
  else st

/-- Core of LTOPacker.run after the staging-directory dialog: the full
walk followed by the final seal. -/
def packRun (threshold_mb max_zip_size_gb : Nat) (files : List SrcFile) :
    PackerState :=
  packFinish (files.foldl (packStep threshold_mb max_zip_size_gb)
    PackerState.init)

/-- Operator answer to the non-empty-staging dialog of LTOPacker.run:
input 2 reuses the staging, input 1 deletes and repacks, any other input
aborts. -/
inductive StagingChoice where
  | reuse
  | clean
  | abort
  deriving DecidableEq, Repr

/-- LTOPacker.run including the staging dialog: with a pre-existing
non-empty staging directory the operator chooses; otherwise packing
proceeds directly.  Returns some metadata on a completed pack, some []
when existing staging is reused, none on abort. -/
def packerRun (stagingNonEmpty : Bool) (choice : StagingChoice)
    (threshold_mb max_zip_size_gb : Nat) (files : List SrcFile) :
    Option (List Meta) :=
  if stagingNonEmpty then
    match choice with
    | .reuse => some []
    | .clean => some (packRun threshold_mb max_zip_size_gb files).metadata
    | .abort => none
  else some (packRun threshold_mb max_zip_size_gb files).metadata

/-- Path concatenation as os.path.join performs it for a directory
without trailing separator and a relative component. -/
def pathJoin (dir rel : String) : String :=
  dir ++ "/" ++ rel

/-- Contents of the tape-side destination tree under tape_root, as a
size-per-relative-path listing; the change-detection phase of
LTOBackup.run only ever consults existence and size of the destination
file. -/
def TapeTree := List (String × Nat)

/-- Size of the destination file at a relative path, none when it does
not exist. -/
def lookupSize (tape : List (String × Nat)) (rel : String) : Option Nat :=
  (tape.find? (fun e => e.1 = rel)).map (fun e => e.2)

/-- Phase-1 test of LTOBackup.run for one walked source file: a file is
skipped (not hashed, no record this session) exactly when a destination
file of the same relative path exists with the same size; otherwise it
is hashed into hash_map. -/
def needsCopy (tape : List (String × Nat)) (f : SrcFile) : Bool :=
  match lookupSize tape f.rel with
  | some sz => decide (sz ≠ f.size)
  | none => true

/-- Bulk Transfer Service model (the recursive robocopy call of
LTOBackup.run phase 2, per the contract in the specification): every
source file missing from or differing in size at the destination is
copied there, files already present at the same size are skipped, and
bytes_copied in the parsed summary is the sum of the copied sizes.
Destination files outside the source tree are left in place. -/
def robocopyTree (source : List SrcFile) (tape : List (String × Nat)) :
    (List (String × Nat)) × Nat :=
  let copied := source.filter (needsCopy tape)
  (source.map (fun f => (f.rel, f.size)) ++
     tape.filter (fun e => source.all (fun f => f.rel ≠ e.1)),
   (copied.map (fun f => f.size)).sum)

/-- Test of LTOBackup.run phase 3 that keeps bundle archives out of the
loose-record loop: basename starts with Bundle_ and ends with .zip. -/
def isBundleFile (name : String) : Bool :=
  name.startsWith "Bundle_" && name.endsWith ".zip"

/-- Lookup in the meta_by_rel dict of LTOBackup.run: it is keyed by the
stored_path of the non-packed metadata entries, later entries
overwriting earlier ones as in a Python dict. -/
def lookupMetaByRel (packer_metadata : List Meta) (rel : String) :
    Option Meta :=
  ((packer_metadata.filter (fun m => !m.is_packed)).reverse).find?
    (fun m => m.stored_path = rel)

/-- Outcome of LTOBackup.run: the destination tree after the transfer
and the database after reconciliation and accounting. -/
structure BackupResult where
  tape : List (String × Nat)
  db : DB

/-- LTOBackup.run.  source lists the walked tree to be copied (the
staging tree in staged mode, the source tree in direct mode) in walk
order; tape lists the destination tree under tape_root; packer_metadata
is none for a direct backup, some [] for reused staging, some of a
non-empty list for a fresh pack.  Phase 1 collects hash_map (files
needing copy, with their hashes); phase 2 delegates the tree copy to the
Bulk Transfer Service; phase 3 inserts one FileRecord per hashed file
(direct mode), or per hashed non-bundle file found in meta_by_rel plus
one per packed metadata entry with container_name rewritten under
tape_root (staged mode), and none at all for reused staging; finally the
reported bytes_copied is added to the tape's used_space when positive.
The now argument stands for the insertion timestamps of this session. -/
def backupRun (source : List SrcFile) (tape_root : String)
    (tape : List (String × Nat)) (tape_label : String)
    (packer_metadata : Option (List Meta)) (db : DB) (now : String) :
    BackupResult :=
  let hash_map := source.filter (needsCopy tape)
  let transfer := robocopyTree source tape
  let db1 :=
    match packer_metadata with
    | none =>
      hash_map.foldl (fun d f =>
        insertFile d f.name f.path f.size f.hash tape_label false none
          (pathJoin tape_root f.rel) now) db
    | some [] => db
    | some (m0 :: ms) =>
      let pm := m0 :: ms
      let d1 := hash_map.foldl (fun d f =>
        if isBundleFile f.name then d
        else
          match lookupMetaByRel pm f.rel with
          | some m =>
            insertFile d f.name m.original_path f.size f.hash tape_label
              false none (pathJoin tape_root f.rel) now
          | none => d) db
      pm.foldl (fun d m =>
        if m.is_packed then
          insertFile d m.file_name m.original_path m.file_size_bytes
            (m.file_hash.getD "") tape_label true
            (some (pathJoin tape_root (m.container_name.getD "")))
            m.stored_path now
        else d) d1
  let db2 :=
    if transfer.2 > 0 then updateUsedSpace db1 tape_label transfer.2
    else db1
  { tape := transfer.1, db := db2 }

/-- Database effect of TapeManager.format_tape after a successful format
command: when a previously mounted label was detected and is registered,
the old tape row and its file records are deleted; then the new label is
registered.  old_label is the volume label read from the drive before
formatting (none when detection failed). -/
def formatTapeDb (db : DB) (old_label : Option String) (new_label : String)
    (capacity_gb : Option Nat) (now : String) : DB :=
  let db1 :=
    match old_label with
    | some ol => if tapeExists db ol then deleteTape db ol else db
    | none => db
  (registerTape db1 new_label capacity_gb now).1

/-- Destination path of a restored file, shared by
LTORetriever._restore_loose, _restore_packed and _restore_packed_bulk:
the restore directory joined with the record's bare file_name. -/
def restoreDest (restore_dir : String) (r : FileRecord) : String :=
  pathJoin restore_dir r.file_name

/-- Keys of a Python dict in insertion order: first occurrence wins, as
for the defaultdict groupings of LTORetriever._restore_many. -/
def firstSeen (keys : List String) : List String :=
  keys.foldl (fun acc k => if acc.contains k then acc else acc ++ [k]) []

/-- Restores performed for one tape group by LTORetriever._restore_many,
as the ordered list of (destination path, file_id of the record whose
content is written there): loose records first, individually, then
packed records grouped by container, each container extracted in one
pass.  Every restore in the group succeeds here. -/
def restoreWritesForTape (restore_dir : String) (rs : List FileRecord) :
    List (String × Nat) :=
  let loose := rs.filter (fun r => !r.is_packed)
  let packed := rs.filter (fun r => r.is_packed)
  let looseWrites := loose.map (fun r => (restoreDest restore_dir r, r.file_id))
  let containers := firstSeen (packed.map (fun r => r.container_name.getD ""))
  let packedWrites := containers.flatMap (fun c =>
    (packed.filter (fun r => r.container_name.getD "" = c)).map
      (fun r => (restoreDest restore_dir r, r.file_id)))
  looseWrites ++ packedWrites

/-- LTORetriever._restore_many over a selection of records: the ordered
list of writes into the restore directory, grouped by tape in
first-occurrence order. -/
def restoreManyWrites (restore_dir : String) (records : List FileRecord) :
    List (String × Nat) :=
  (firstSeen (records.map (fun r => r.tape_label))).flatMap
    (fun t => restoreWritesForTape restore_dir
      (records.filter (fun r => r.tape_label = t)))

/-- Content of the restore directory at a path once all writes have run:
each write overwrites whatever an earlier write left at the same path. -/
def finalStore (writes : List (String × Nat)) (p : String) : Option Nat :=
  (writes.reverse.find? (fun w => w.1 = p)).map (fun w => w.2)

/-- Prefix test on code-point lists up to the ASCII case folding that
SQLite LIKE applies; the reference notion of matching that the wrapped
percent-pattern of search_files is compared against. -/
def startsWithFold : List Char → List Char → Bool
  | [], _ => true
  | _ :: _, [] => false
  | a :: as, b :: bs =>
    if foldAscii a = foldAscii b then startsWithFold as bs else false

/-- Substring test on code-point lists up to ASCII case folding: the
reference notion of a substring match for a search query. -/
def containsFold (p : List Char) : List Char → Bool
  | [] => startsWithFold p []
  | c :: s1 => startsWithFold p (c :: s1) || containsFold p (c :: s1).tail

/-- Database write operations the system performs other than tape
deletion: manual or format-time registration, a single file insert, the
used-space accumulation, and a whole backup session.  TapeManager
formatting over an already-registered label is excluded here because it
goes through delete_tape, the one deleting operation. -/
inductive DbOp where
  | register (volume_label : String) (capacity_gb : Option Nat) (now : String)
  | insert (file_name original_path : String) (file_size_bytes : Nat)
      (file_hash tape_label : String) (is_packed : Bool)
      (container_name : Option String) (stored_path now : String)
  | addUsed (volume_label : String) (bytes_added : Nat)
  | backup (source : List SrcFile) (tape_root : String)
      (tape : List (String × Nat)) (tape_label : String)
      (packer_metadata : Option (List Meta)) (now : String)

/-- Effect of one non-deleting operation on the database. -/
def applyDbOp (db : DB) : DbOp → DB
  | .register l c n => (registerTape db l c n).1
  | .insert fn op sz h tl ip cn sp n => insertFile db fn op sz h tl ip cn sp n
  | .addUsed l b => updateUsedSpace db l b
  | .backup src root tape l pm n => (backupRun src root tape l pm db n).db

/-- Used space recorded for a volume label in a tapes table, 0 when the
label is absent (SELECT used_space ... semantics on the first matching
row). -/
def usedOf (ts : List Tape) (l : String) : Nat :=
  ((ts.find? (fun t => t.volume_label = l)).map Tape.used_space).getD 0

/-- Used space recorded for a volume label in the database. -/
def usedSpaceOf (db : DB) (l : String) : Nat :=
  usedOf db.tapes l

/-- Sample packed metadata entry, as LTOPacker.run emits for a small
file streamed into the first bundle. -/
def mPackedSample : Meta :=
  { file_name := "f.bin", original_path := "C:/src/f.bin",
    file_size_bytes := 3, file_hash := some "hf", is_packed := true,
    container_name := some "Bundle_001.zip", stored_path := "f.bin" }

/-- Sample walked source file. -/
def sfSample : SrcFile :=
  { name := "a.bin", rel := "a.bin", path := "C:/src/a.bin",
    size := 7, hash := "ha" }

/-- Sample file record on tape T1, stamped the way insert_file stamps
records (datetime.now().isoformat() uses the T separator). -/
def recT1 : FileRecord :=
  { file_id := 1, file_name := "a.txt", original_path := "C:/src/a.txt",
    file_size_bytes := 5, file_hash := "h1",
    backup_date := "2024-03-05T12:00:00", tape_label := "T1",
    is_packed := false, container_name := none,
    stored_path := "D:/src/a.txt" }

/-- Sample file record on tape T2. -/
def recT2 : FileRecord :=
  { file_id := 2, file_name := "b.txt", original_path := "C:/src/b.txt",
    file_size_bytes := 6, file_hash := "h2",
    backup_date := "2024-04-01T08:00:00", tape_label := "T2",
    is_packed := false, container_name := none,
    stored_path := "D:/src/b.txt" }

/-- Sample tape row. -/
def tapeT1 : Tape :=
  { volume_label := "T1", date_formatted := "2024-03-01T10:00:00",
    total_capacity := some 5700, used_space := 11 }

/-- Sample tape row. -/
def tapeT2 : Tape :=
  { volume_label := "T2", date_formatted := "2024-03-02T10:00:00",
    total_capacity := none, used_space := 0 }

/-- Sample database with two tapes and one record on each. -/
def dbSample : DB :=
  { tapes := [tapeT1, tapeT2], files := [recT1, recT2], next_id := 3 }

/-- Sample record whose file name holds a literal underscore and the
substring a_b. -/
def recUnderscore : FileRecord :=
  { file_id := 3, file_name := "xa_by", original_path := "C:/src/xa_by",
    file_size_bytes := 4, file_hash := "h3",
    backup_date := "2024-04-02T08:00:00", tape_label := "T1",
    is_packed := false, container_name := none,
    stored_path := "D:/src/xa_by" }

/-- Sample record sharing the file name of recT1 on the same tape but
with a different source path and id. -/
def recDup : FileRecord :=
  { file_id := 7, file_name := "a.txt", original_path := "C:/other/a.txt",
    file_size_bytes := 9, file_hash := "h7",
    backup_date := "2024-05-06T09:00:00", tape_label := "T1",
    is_packed := false, container_name := none,
    stored_path := "D:/other/a.txt" }

/-- Sample walked file of 1.5 GB, under a 2048 MB packing threshold but
above a 1 GB container limit. -/
def bigFileSample : SrcFile :=
  { name := "big.mov", rel := "big.mov", path := "C:/src/big.mov",
    size := 1610612736, hash := "hb" }

/-- Invariant of the LTOPacker.run loop used for the container bound:
every sealed container and the open one hold at most 99 percent of the
nominal limit, the sealed containers are numbered 1, 2, ... in order,
and the next bundle index is one past the sealed count. -/
def PackInv (g : Nat) (st : PackerState) : Prop :=
  (∀ z ∈ st.sealed, 100 * z.content_bytes ≤ 99 * (g * 1024 ^ 3)) ∧
  100 * st.current_zip_size ≤ 99 * (g * 1024 ^ 3) ∧
  st.sealed.map SealedZip.idx = List.range' 1 st.sealed.length ∧
  st.zip_idx = st.sealed.length + 1

theorem analyzeStep_partition (t : Nat) (r : AnalyzerReport) (sz : Option Nat)
    (h : r.tiny + r.small + r.medium + r.large + r.huge = r.total_files) :
    (analyzeStep t r sz).tiny + (analyzeStep t r sz).small +
      (analyzeStep t r sz).medium + (analyzeStep t r sz).large +
      (analyzeStep t r sz).huge = (analyzeStep t r sz).total_files := by
  cases sz with
  | none => simpa [analyzeStep] using h
  | some s =>
    simp only [analyzeStep]
    split_ifs <;> simp_all <;> omega

theorem analyzeFold_partition (t : Nat) (sizes : List (Option Nat)) :
    ∀ r : AnalyzerReport,
      r.tiny + r.small + r.medium + r.large + r.huge = r.total_files →
      (sizes.foldl (analyzeStep t) r).tiny + (sizes.foldl (analyzeStep t) r).small +
        (sizes.foldl (analyzeStep t) r).medium + (sizes.foldl (analyzeStep t) r).large +
        (sizes.foldl (analyzeStep t) r).huge = (sizes.foldl (analyzeStep t) r).total_files := by
  induction sizes with
  | nil => intro r h; exact h
  | cons s ss ih =>
    intro r h
    exact ih (analyzeStep t r s) (analyzeStep_partition t r s h)

/-- C8: the Capacity Analyzer's five size buckets are mutually exclusive
and exhaustive over the readable files, so the five bucket counts sum to
the reported total file count, and a file whose size cannot be read (a
none entry) is counted in neither the total nor any bucket. -/
theorem analyzer_bucket_partition (threshold_mb : Nat)
    (sizes : List (Option Nat)) :
    ((analyzeRun threshold_mb sizes).tiny + (analyzeRun threshold_mb sizes).small +
      (analyzeRun threshold_mb sizes).medium + (analyzeRun threshold_mb sizes).large +
      (analyzeRun threshold_mb sizes).huge =
      (analyzeRun threshold_mb sizes).total_files) ∧
    (∀ r : AnalyzerReport, analyzeStep threshold_mb r none = r) :=
  ⟨analyzeFold_partition threshold_mb sizes AnalyzerReport.init rfl,
   fun _ => rfl⟩

/-- C10: registering a volume label that already exists returns false
and leaves the whole database unchanged; registering a fresh label
returns true, appends exactly one tape row with zero used space and the
given capacity, and leaves the files table unchanged. -/
theorem register_tape_cases (db : DB) (l : String) (c : Option Nat)
    (n : String) :
    (tapeExists db l = true → registerTape db l c n = (db, false)) ∧
    (tapeExists db l = false →
      (registerTape db l c n).2 = true ∧
      (registerTape db l c n).1.tapes =
        db.tapes ++ [{ volume_label := l, date_formatted := n,
                       total_capacity := c, used_space := 0 }] ∧
      (registerTape db l c n).1.files = db.files) := by
  unfold registerTape
  constructor
  · intro h; simp [h]
  · intro h; simp [h]

/-- Witness for C10: duplicate registration of T1 against the sample
database changes nothing and reports false; registration of T3 against
the empty database reports true and appends one tape row. -/
theorem register_tape_cases_witness :
    (registerTape dbSample "T1" none "2024-05-01T00:00:00" = (dbSample, false)) ∧
    ((registerTape DB.empty "T3" (some 5700) "2024-05-01T00:00:00").2 = true ∧
     (registerTape DB.empty "T3" (some 5700) "2024-05-01T00:00:00").1.tapes =
       DB.empty.tapes ++ [{ volume_label := "T3",
                            date_formatted := "2024-05-01T00:00:00",
                            total_capacity := some 5700, used_space := 0 }] ∧
     (registerTape DB.empty "T3" (some 5700) "2024-05-01T00:00:00").1.files =
       DB.empty.files) :=
  ⟨(register_tape_cases dbSample "T1" none "2024-05-01T00:00:00").1 (by decide),
   (register_tape_cases DB.empty "T3" (some 5700) "2024-05-01T00:00:00").2
     (by decide)⟩

/-- C2 (evaluation of the code at the failing input): a record inserted
on 2024-03-05 carries the T-separated timestamp insert_file writes, and
a search bounded by date_to = 2024-03-05 misses it, because the widened
bound uses a space before 23:59:59 and the space character sorts before
T under SQLite BINARY collation; the date_from bound on the same day
does return the record.  The specified behavior, an inclusive date_to
widened to end of day, is therefore not what the code does. -/
theorem search_date_to_excludes_same_day :
    searchFiles { tapes := [tapeT1], files := [recT1], next_id := 2 }
        none none (some "2024-03-05") = [] ∧
    searchFiles { tapes := [tapeT1], files := [recT1], next_id := 2 }
        none (some "2024-03-05") none = [recT1] ∧
    recT1.backup_date = "2024-03-05T12:00:00" := by
  refine ⟨?_, ?_, rfl⟩ <;> decide

theorem any_filter_ne (ts : List Tape) (l : String) :
    (ts.filter (fun t => t.volume_label ≠ l)).any
      (fun t => t.volume_label = l) = false := by
  induction ts with
  | nil => rfl
  | cons t ts ih => by_cases h : t.volume_label = l <;> simp [h, ih]

theorem tapeExists_deleteTape (db : DB) (l : String) :
    tapeExists (deleteTape db l) l = false :=
  any_filter_ne db.tapes l

/-- C4: reformatting under a label that is registered in the index
first deletes the old label's tape row together with all its
FileRecords, then inserts a fresh tape row for that label; afterwards
the files table holds exactly the records of other tapes and the tapes
table ends with the freshly registered row. -/
theorem format_tape_relabel (db : DB) (ol : String) (c : Option Nat)
    (n : String) (h : tapeExists db ol = true) :
    (formatTapeDb db (some ol) ol c n).files =
      db.files.filter (fun r => r.tape_label ≠ ol) ∧
    (formatTapeDb db (some ol) ol c n).tapes =
      db.tapes.filter (fun t => t.volume_label ≠ ol) ++
        [{ volume_label := ol, date_formatted := n, total_capacity := c,
           used_space := 0 }] := by
  have hdel : tapeExists (deleteTape db ol) ol = false :=
    tapeExists_deleteTape db ol
  simp only [formatTapeDb, h, if_true, registerTape, hdel,
    Bool.false_eq_true, if_false]
  simp [deleteTape]

/-- Witness for C4: reformatting the sample database under the already
used label T1 removes exactly the T1 records and re-registers T1. -/
theorem format_tape_relabel_witness :
    (formatTapeDb dbSample (some "T1") "T1" (some 5700)
        "2024-06-01T00:00:00").files =
      dbSample.files.filter (fun r => r.tape_label ≠ "T1") ∧
    (formatTapeDb dbSample (some "T1") "T1" (some 5700)
        "2024-06-01T00:00:00").tapes =
      dbSample.tapes.filter (fun t => t.volume_label ≠ "T1") ++
        [{ volume_label := "T1", date_formatted := "2024-06-01T00:00:00",
           total_capacity := some 5700, used_space := 0 }] :=
  format_tape_relabel dbSample "T1" (some 5700) "2024-06-01T00:00:00"
    (by decide)

theorem packStep_inv (t g : Nat) (f : SrcFile) (st : PackerState)
    (hf : f.size < t * 1024 ^ 2 → 100 * f.size ≤ 99 * (g * 1024 ^ 3))
    (h : PackInv g st) : PackInv g (packStep t g st f) := by
  obtain ⟨hs, hc, hn, hi⟩ := h
  simp only [packStep]
  split_ifs with h1 h2
  · refine ⟨?_, ?_, ?_, ?_⟩
    · intro z hz
      simp only [List.mem_append, List.mem_singleton] at hz
      rcases hz with hz | rfl
      · exact hs z hz
      · exact hc
    · simpa using hf h1
    · simpa [hi, List.range'_concat, Nat.add_comm] using hn
    · simp [hi]
  · refine ⟨by simpa using hs, ?_, by simpa using hn, by simpa using hi⟩
    have h2a : 100 * (st.current_zip_size + f.size) ≤ 99 * (g * 1024 ^ 3) := by
      omega
    simpa using h2a
  · exact ⟨hs, hc, hn, hi⟩

theorem packFold_inv (t g : Nat) (files : List SrcFile) :
    ∀ st : PackerState,
      (∀ f ∈ files, f.size < t * 1024 ^ 2 → 100 * f.size ≤ 99 * (g * 1024 ^ 3)) →
      PackInv g st → PackInv g (files.foldl (packStep t g) st) := by
  induction files with
  | nil => intro st _ h; exact h
  | cons f fs ih =>
    intro st hf h
    exact ih _ (fun x hx => hf x (List.mem_cons_of_mem f hx))
      (packStep_inv t g f st (hf f (List.mem_cons_self f fs)) h)

theorem packFinish_inv (g : Nat) (st : PackerState) (h : PackInv g st) :
    (∀ z ∈ (packFinish st).sealed, 100 * z.content_bytes ≤ 99 * (g * 1024 ^ 3)) ∧
    (packFinish st).sealed.map SealedZip.idx =
      List.range' 1 (packFinish st).sealed.length := by
  obtain ⟨hs, hc, hn, hi⟩ := h
  simp only [packFinish]
  split_ifs with h1
  · refine ⟨?_, ?_⟩
    · intro z hz
      simp only [List.mem_append, List.mem_singleton] at hz
      rcases hz with hz | rfl
      · exact hs z hz
      · exact hc
    · simpa [hi, List.range'_concat, Nat.add_comm] using hn
  · exact ⟨hs, hn⟩

/-- C3 (amended): provided every file below the packing threshold is
itself at most 99 percent of the nominal container limit — which the
as-stated claim silently assumes, and which any threshold not exceeding
0.99 times the limit guarantees — no sealed container's content exceeds
maxContainerGB, and the sealed containers are numbered sequentially
1, 2, ... in seal order.  Without that proviso a single under-threshold
oversized file lands alone in a fresh container that exceeds the limit
(see the counterexample). -/
theorem packer_container_bound (t g : Nat) (files : List SrcFile)
    (hf : ∀ f ∈ files, f.size < t * 1024 ^ 2 →
      100 * f.size ≤ 99 * (g * 1024 ^ 3)) :
    (∀ z ∈ (packRun t g files).sealed, z.content_bytes ≤ g * 1024 ^ 3) ∧
    (packRun t g files).sealed.map SealedZip.idx =
      List.range' 1 (packRun t g files).sealed.length := by
  have hinit : PackInv g PackerState.init := by
    refine ⟨?_, ?_, ?_, ?_⟩ <;> simp [PackerState.init]
  have h := packFinish_inv g (files.foldl (packStep t g) PackerState.init)
    (packFold_inv t g files PackerState.init hf hinit)
  refine ⟨fun z hz => ?_, h.2⟩
  have := h.1 z hz
  omega

/-- Witness for C3 at a one-file tree: a 7-byte file with threshold
1 MB and limit 1 GB yields one sealed bundle of 7 bytes, numbered 1. -/
theorem packer_container_bound_witness :
    (∀ z ∈ (packRun 1 1 [sfSample]).sealed,
      z.content_bytes ≤ 1 * 1024 ^ 3) ∧
    (packRun 1 1 [sfSample]).sealed.map SealedZip.idx =
      List.range' 1 (packRun 1 1 [sfSample]).sealed.length :=
  packer_container_bound 1 1 [sfSample] (by decide)

/-- C3 counterexample: with threshold 2048 MB and container limit 1 GB,
a single 1.5 GB file is under threshold, triggers the rollover on the
empty first bundle, and is then streamed whole into bundle 2, whose
content exceeds the 1 GB limit; the as-stated universal bound is false. -/
theorem packer_container_oversize_counterexample :
    (packRun 2048 1 [bigFileSample]).sealed =
      [{ idx := 1, content_bytes := 0, nfiles := 0 },
       { idx := 2, content_bytes := 1610612736, nfiles := 1 }] ∧
    1 * 1024 ^ 3 < 1610612736 := by
  refine ⟨?_, ?_⟩ <;> decide

theorem packFinish_metadata (st : PackerState) :
    (packFinish st).metadata = st.metadata := by
  simp only [packFinish]
  split_ifs <;> rfl

theorem packStep_metadata_length (t g : Nat) (st : PackerState) (f : SrcFile) :
    (packStep t g st f).metadata.length = st.metadata.length + 1 := by
  simp only [packStep]
  split_ifs <;> simp

theorem packFold_metadata_length (t g : Nat) (files : List SrcFile) :
    ∀ st : PackerState,
      (files.foldl (packStep t g) st).metadata.length =
        st.metadata.length + files.length := by
  induction files with
  | nil => intro st; rfl
  | cons f fs ih =>
    intro st
    rw [List.foldl_cons, ih, packStep_metadata_length]
    simp only [List.length_cons]
    omega

theorem packRun_metadata_length (t g : Nat) (files : List SrcFile) :
    (packRun t g files).metadata.length = files.length := by
  rw [packRun, packFinish_metadata, packFold_metadata_length]
  simp [PackerState.init]

/-- C7 (amended): the Bundle Packer returns an empty metadata list when
the operator reuses a pre-existing non-empty staging directory, and also
whenever packing runs over a tree with no processable files; it returns
a null result exactly when staging was non-empty and the operator
declined both reusing and clearing it; in the packing cases it returns
exactly one metadata record per processed file. -/
theorem packer_result_cases (staging : Bool) (choice : StagingChoice)
    (t g : Nat) (files : List SrcFile) :
    (packerRun true StagingChoice.reuse t g files = some []) ∧
    (packerRun staging choice t g files = none ↔
      staging = true ∧ choice = StagingChoice.abort) ∧
    ((staging = false ∨ choice = StagingChoice.clean) →
      packerRun staging choice t g files =
        some ((packRun t g files).metadata) ∧
      (packRun t g files).metadata.length = files.length) := by
  refine ⟨rfl, ?_, ?_⟩
  · cases staging with
    | false => simp [packerRun]
    | true => cases choice <;> simp [packerRun]
  · intro h
    refine ⟨?_, packRun_metadata_length t g files⟩
    rcases h with h | h
    · subst h; rfl
    · subst h; cases staging <;> rfl

/-- Witness for C7: reuse over non-empty staging yields the empty
metadata list, and a fresh pack over a one-file tree yields exactly one
metadata record. -/
theorem packer_result_cases_witness :
    packerRun true StagingChoice.reuse 100 100 [sfSample] = some [] ∧
    (packerRun false StagingChoice.clean 100 100 [sfSample] =
       some ((packRun 100 100 [sfSample]).metadata) ∧
     (packRun 100 100 [sfSample]).metadata.length = [sfSample].length) :=
  ⟨(packer_result_cases true StagingChoice.reuse 100 100 [sfSample]).1,
   (packer_result_cases false StagingChoice.clean 100 100 [sfSample]).2.2
     (Or.inl rfl)⟩

/-- C7 counterexample: with an empty (or cleared) staging directory and
an empty source tree the packer also returns the empty metadata list, so
an empty result is not returned exactly when the operator reused
existing staging. -/
theorem packer_empty_result_counterexample :
    ¬ (packerRun false StagingChoice.clean 100 100 [] = some [] ↔
        false = true ∧ StagingChoice.clean = StagingChoice.reuse) := by
  decide

theorem foldl_tapes {α : Type} (g : DB → α → DB) (l : List α) (db : DB)
    (h : ∀ d a, (g d a).tapes = d.tapes) : (l.foldl g db).tapes = db.tapes := by
  induction l generalizing db with
  | nil => rfl
  | cons a as ih => rw [List.foldl_cons, ih, h]

theorem backupRun_db_tapes (src : List SrcFile) (root : String)
    (tape : List (String × Nat)) (l : String) (pm : Option (List Meta))
    (db : DB) (n : String) :
    (backupRun src root tape l pm db n).db.tapes =
      (if 0 < (robocopyTree src tape).2 then
        (updateUsedSpace db l (robocopyTree src tape).2).tapes
       else db.tapes) := by
  have hbase : ∀ db1 : DB, db1.tapes = db.tapes →
      (if 0 < (robocopyTree src tape).2 then
        updateUsedSpace db1 l (robocopyTree src tape).2
       else db1).tapes =
      (if 0 < (robocopyTree src tape).2 then
        (updateUsedSpace db l (robocopyTree src tape).2).tapes
       else db.tapes) := by
    intro db1 h1
    split_ifs with hb
    · simp [updateUsedSpace, h1]
    · exact h1
  simp only [backupRun]
  cases pm with
  | none => exact hbase _ (foldl_tapes _ _ _ (fun _ _ => rfl))
  | some ms =>
    cases ms with
    | nil => exact hbase _ rfl
    | cons m0 ms1 =>
      refine hbase _ ?_
      rw [foldl_tapes, foldl_tapes]
      · intro d f
        dsimp only
        by_cases hb : isBundleFile f.name
        · simp [hb]
        · simp only [hb, if_false]
          cases lookupMetaByRel (m0 :: ms1) f.rel <;> rfl
      · intro d m
        dsimp only
        by_cases hp : m.is_packed <;> simp [hp, insertFile]

theorem usedOf_cons (t : Tape) (ts : List Tape) (q : String) :
    usedOf (t :: ts) q =
      if t.volume_label = q then t.used_space else usedOf ts q := by
  by_cases h : t.volume_label = q <;>
    simp [usedOf, List.find?_cons, h]

theorem usedOf_map_add_ge (ts : List Tape) (l : String) (b : Nat)
    (q : String) :
    usedOf ts q ≤ usedOf (ts.map (fun t =>
      if t.volume_label = l then { t with used_space := t.used_space + b }
      else t)) q := by
  induction ts with
  | nil => simp [usedOf]
  | cons t ts ih =>
    have hlab : (if t.volume_label = l then
        { t with used_space := t.used_space + b } else t).volume_label =
        t.volume_label := by split_ifs <;> rfl
    simp only [List.map_cons]
    rw [usedOf_cons, usedOf_cons, hlab]
    by_cases hq : t.volume_label = q
    · simp only [hq, if_true]
      split_ifs <;> simp
    · simp only [hq, if_false]
      exact ih

theorem usedOf_map_add_eq (ts : List Tape) (l : String) (b : Nat)
    (h : ts.any (fun t => t.volume_label = l) = true) :
    usedOf (ts.map (fun t =>
      if t.volume_label = l then { t with used_space := t.used_space + b }
      else t)) l = usedOf ts l + b := by
  induction ts with
  | nil => simp at h
  | cons t ts ih =>
    have hlab : (if t.volume_label = l then
        { t with used_space := t.used_space + b } else t).volume_label =
        t.volume_label := by split_ifs <;> rfl
    simp only [List.map_cons]
    rw [usedOf_cons, usedOf_cons, hlab]
    by_cases hl : t.volume_label = l
    · simp [hl]
    · have h1 : ts.any (fun t => t.volume_label = l) = true := by
        simpa [hl] using h
      simp only [hl, if_false]
      exact ih h1

theorem usedOf_append_ge (ts l2 : List Tape) (q : String) :
    usedOf ts q ≤ usedOf (ts ++ l2) q := by
  induction ts with
  | nil => simp [usedOf]
  | cons t ts ih =>
    simp only [List.cons_append]
    rw [usedOf_cons, usedOf_cons]
    by_cases hq : t.volume_label = q
    · simp [hq]
    · simp only [hq, if_false]
      exact ih

/-- C5: across every non-deleting operation (registration, file insert,
used-space accumulation, and a whole backup session) a tape's recorded
used_space never decreases, and a backup session against a registered
tape adds to it exactly the byte count the Bulk Transfer Service reports
as newly copied — in particular nothing when that report is zero, and
never a value recomputed from FileRecords. -/
theorem used_space_accounting :
    (∀ (db : DB) (op : DbOp) (q : String),
      usedSpaceOf db q ≤ usedSpaceOf (applyDbOp db op) q) ∧
    (∀ (src : List SrcFile) (root : String) (tape : List (String × Nat))
        (l : String) (pm : Option (List Meta)) (db : DB) (n : String),
      tapeExists db l = true →
      usedSpaceOf (backupRun src root tape l pm db n).db l =
        usedSpaceOf db l + (robocopyTree src tape).2) := by
  constructor
  · intro db op q
    cases op with
    | register l c n =>
      simp only [applyDbOp, registerTape]
      split_ifs with h
      · exact le_refl _
      · exact usedOf_append_ge db.tapes _ q
    | insert fn op2 sz h tl ip cn sp n => exact le_refl _
    | addUsed l b => exact usedOf_map_add_ge db.tapes l b q
    | backup src root tape l pm n =>
      have ht := backupRun_db_tapes src root tape l pm db n
      simp only [applyDbOp, usedSpaceOf]
      rw [ht]
      split_ifs with hb
      · exact usedOf_map_add_ge db.tapes l _ q
      · exact le_refl _
  · intro src root tape l pm db n hex
    have ht := backupRun_db_tapes src root tape l pm db n
    simp only [usedSpaceOf]
    rw [ht]
    split_ifs with hb
    · exact usedOf_map_add_eq db.tapes l _ hex
    · omega

/-- Witness for C5: a direct backup of the 7-byte sample file onto the
empty destination of registered tape T1 raises its used_space by exactly
the reported 7 copied bytes. -/
theorem used_space_accounting_witness :
    usedSpaceOf (backupRun [sfSample] "D:/A" [] "T1" none dbSample "t").db
        "T1" =
      usedSpaceOf dbSample "T1" + (robocopyTree [sfSample] []).2 :=
  used_space_accounting.2 [sfSample] "D:/A" [] "T1" none dbSample "t"
    (by decide)

theorem likeMatch_percent_nil (s : List Char) : likeMatch ['%'] s = true := by
  induction s with
  | nil => rfl
  | cons c s ih =>
    simp [likeMatch, percentScan] at ih ⊢
    simpa [likeMatch] using ih

theorem likeMatch_lit_percent (lit : List Char)
    (h : ∀ c ∈ lit, c ≠ '%' ∧ c ≠ '_') :
    ∀ s : List Char, likeMatch (lit ++ ['%']) s = startsWithFold lit s := by
  induction lit with
  | nil => intro s; simp [startsWithFold, likeMatch_percent_nil]
  | cons a as ih =>
    have ha := h a (List.mem_cons_self a as)
    have h1 : ∀ c ∈ as, c ≠ '%' ∧ c ≠ '_' :=
      fun c hc => h c (List.mem_cons_of_mem a hc)
    intro s
    cases s with
    | nil => simp [likeMatch, startsWithFold, ha.1, ha.2]
    | cons c s1 =>
      simp [likeMatch, startsWithFold, ha.1, ha.2, ih h1]

theorem likeMatch_wrap (lit : List Char)
    (h : ∀ c ∈ lit, c ≠ '%' ∧ c ≠ '_') :
    ∀ s : List Char, likeMatch ('%' :: (lit ++ ['%'])) s = containsFold lit s := by
  intro s
  induction s with
  | nil =>
    simp [likeMatch, percentScan, containsFold, likeMatch_lit_percent lit h]
  | cons c s1 ih =>
    simp only [likeMatch, percentScan] at ih ⊢
    simp [containsFold, likeMatch_lit_percent lit h, ih]

theorem containsFold_nil (s : List Char) : containsFold [] s = true := by
  cases s <;> simp [containsFold, startsWithFold]

theorem toLikePattern_no_wild (q : String)
    (hw : ∀ c ∈ q.toList, c ≠ '*' ∧ c ≠ '?' ∧ c ≠ '%' ∧ c ≠ '_') :
    toLikePattern q = "%" ++ q ++ "%" := by
  have hmap : q.toList.map (fun c =>
      if c = '*' then '%' else if c = '?' then '_' else c) = q.toList := by
    have h1 : q.toList.map (fun c =>
        if c = '*' then '%' else if c = '?' then '_' else c) =
        q.toList.map id :=
      List.map_congr_left (fun c hc => by
        obtain ⟨h1, h2, _, _⟩ := hw c hc
        simp [h1, h2])
    rw [h1, List.map_id]
  have hmk : String.mk q.toList = q := rfl
  have hcond : (q.toList.all (fun c => c ≠ '%' ∧ c ≠ '_')) = true := by
    simp only [List.all_eq_true, decide_eq_true_eq]
    intro c hc
    exact ⟨(hw c hc).2.2.1, (hw c hc).2.2.2⟩
  simp only [toLikePattern, hmap, hmk]
  rw [if_pos hcond]

theorem sqlLike_wrap (name q : String)
    (h : ∀ c ∈ q.toList, c ≠ '%' ∧ c ≠ '_') :
    sqlLike name ("%" ++ q ++ "%") = containsFold q.toList name.toList := by
  have hl : ("%" ++ q ++ "%").toList = '%' :: (q.toList ++ ['%']) := by
    simp [String.toList, String.data_append]
  rw [sqlLike, hl, likeMatch_wrap q.toList h]

/-- C6 (amended): the wildcards star and question mark are mapped to the
SQL percent and underscore wildcards — in particular the pattern IMG_*
matches IMG_001.jpg and not TIMG_001.jpg — and a query containing no
wildcard and no literal percent or underscore is treated as a substring
match on the file name (case-insensitively, as SQLite LIKE compares
ASCII); a wildcard-free query containing a literal underscore or percent
is instead taken as a raw LIKE pattern, not a substring match (see the
counterexample). -/
theorem search_name_semantics (q : String) (db : DB)
    (hw : ∀ c ∈ q.toList, c ≠ '*' ∧ c ≠ '?' ∧ c ≠ '%' ∧ c ≠ '_') :
    searchFiles db (some q) none none =
      db.files.filter (fun r => containsFold q.toList r.file_name.toList) ∧
    sqlLike "IMG_001.jpg" (toLikePattern "IMG_*") = true ∧
    sqlLike "TIMG_001.jpg" (toLikePattern "IMG_*") = false := by
  refine ⟨?_, by decide, by decide⟩
  unfold searchFiles
  apply List.filter_congr
  intro r _
  by_cases hq0 : q = ""
  · subst hq0
    simp [searchMatch, containsFold_nil]
  · simp only [searchMatch, hq0, if_false, Bool.and_true]
    rw [toLikePattern_no_wild q hw,
      sqlLike_wrap r.file_name q
        (fun c hc => ⟨(hw c hc).2.2.1, (hw c hc).2.2.2⟩)]

/-- Witness for C6 at the concrete query a over a two-record table: the
result is the substring filter of the table, which keeps exactly the
record named a.txt. -/
theorem search_name_semantics_witness :
    searchFiles { tapes := [tapeT1], files := [recT1, recT2], next_id := 3 }
        (some "a") none none =
      [recT1, recT2].filter
        (fun r => containsFold "a".toList r.file_name.toList) ∧
    [recT1, recT2].filter
        (fun r => containsFold "a".toList r.file_name.toList) = [recT1] :=
  ⟨(search_name_semantics "a"
      { tapes := [tapeT1], files := [recT1, recT2], next_id := 3 }
      (by decide)).1,
   by decide⟩

/-- C6 counterexample: the query a_b contains neither star nor question
mark, and a_b is a literal substring of the record name xa_by, yet
search_files returns nothing for it: the translated pattern keeps the
underscore, so it is used as a raw LIKE pattern instead of being wrapped
into a substring match. -/
theorem search_name_substring_counterexample :
    (∀ c ∈ "a_b".toList, c ≠ '*' ∧ c ≠ '?') ∧
    containsFold "a_b".toList "xa_by".toList = true ∧
    searchFiles { tapes := [tapeT1], files := [recUnderscore], next_id := 4 }
      (some "a_b") none none = [] := by
  refine ⟨by decide, by decide, by decide⟩

theorem restoreWritesForTape_shape (dir : String) (rs : List FileRecord) :
    ∀ w ∈ restoreWritesForTape dir rs,
      ∃ r ∈ rs, w = (pathJoin dir r.file_name, r.file_id) := by
  intro w hw
  simp only [restoreWritesForTape, List.mem_append, List.mem_map,
    List.mem_flatMap, List.mem_filter] at hw
  rcases hw with ⟨r, ⟨hr, _⟩, rfl⟩ | ⟨c, _, r, ⟨⟨hr, _⟩, _⟩, rfl⟩
  · exact ⟨r, hr, rfl⟩
  · exact ⟨r, hr, rfl⟩

/-- C9: every restore, loose or extracted from a container, writes to
the restore directory joined with the record's bare file_name — the
original directory structure plays no part in the destination — so two
selected records sharing a file_name collide on one destination path,
and restoring them in sequence leaves the later restore's content
there. -/
theorem restore_flat_names (dir : String) :
    (∀ records : List FileRecord, ∀ w ∈ restoreManyWrites dir records,
      ∃ r ∈ records, w = (pathJoin dir r.file_name, r.file_id)) ∧
    (∀ r1 r2 : FileRecord, r1.file_name = r2.file_name →
      restoreDest dir r1 = restoreDest dir r2) ∧
    (∀ r1 r2 : FileRecord, r1.is_packed = false → r2.is_packed = false →
      r2.tape_label = r1.tape_label → r1.file_name = r2.file_name →
      finalStore (restoreManyWrites dir [r1, r2]) (restoreDest dir r2) =
        some r2.file_id) := by
  refine ⟨?_, ?_, ?_⟩
  · intro records w hw
    simp only [restoreManyWrites, List.mem_flatMap] at hw
    obtain ⟨t, _, hw2⟩ := hw
    obtain ⟨r, hr, rfl⟩ := restoreWritesForTape_shape dir _ w hw2
    exact ⟨r, (List.mem_filter.mp hr).1, rfl⟩
  · intro r1 r2 h
    simp [restoreDest, pathJoin, h]
  · intro r1 r2 h1 h2 h3 h4
    have hfs : firstSeen (List.map (fun r => r.tape_label) [r1, r2]) =
        [r1.tape_label] := by
      simp [firstSeen, h3]
    simp only [restoreManyWrites, hfs, List.flatMap_cons, List.flatMap_nil,
      List.append_nil]
    have hfil : List.filter (fun r => r.tape_label = r1.tape_label) [r1, r2] =
        [r1, r2] := by
      simp [List.filter, h3]
    rw [hfil]
    simp only [restoreWritesForTape, h1, h2, List.filter]
    simp only [h1, h2, Bool.not_false, Bool.not_true]
    simp [finalStore, restoreDest, h4]

/-- Witness for C9: restoring recT1 and recDup, which share the name
a.txt on tape T1, produces writes that all target the joined bare name,
and the final content at the collision path is recDup's, the record
restored later. -/
theorem restore_flat_names_witness :
    (∃ r ∈ [recT1, recDup],
      (pathJoin "R" "a.txt", 1) = (pathJoin "R" r.file_name, r.file_id)) ∧
    finalStore (restoreManyWrites "R" [recT1, recDup])
        (restoreDest "R" recDup) = some recDup.file_id :=
  ⟨(restore_flat_names "R").1 [recT1, recDup] (pathJoin "R" "a.txt", 1)
      (by decide),
   (restore_flat_names "R").2.2 recT1 recDup rfl rfl rfl rfl⟩

theorem find?_rel_of_nodup (source : List SrcFile) (f : SrcFile)
    (hnd : (source.map SrcFile.rel).Nodup) (hf : f ∈ source) :
    (source.map (fun g => (g.rel, g.size))).find? (fun e => e.1 = f.rel) =
      some (f.rel, f.size) := by
  induction source with
  | nil => cases hf
  | cons g gs ih =>
    simp only [List.map_cons, List.nodup_cons] at hnd
    rcases List.mem_cons.mp hf with rfl | hf2
    · exact List.find?_cons_of_pos _ (by simp)
    · by_cases hgr : g.rel = f.rel
      · exact absurd (hgr ▸ List.mem_map_of_mem SrcFile.rel hf2) hnd.1
      · rw [List.map_cons, List.find?_cons_of_neg _ (by simp [hgr])]
        exact ih hnd.2 hf2

theorem needsCopy_after_transfer (source : List SrcFile)
    (tape : List (String × Nat)) (f : SrcFile)
    (hnd : (source.map SrcFile.rel).Nodup) (hf : f ∈ source) :
    needsCopy (robocopyTree source tape).1 f = false := by
  unfold needsCopy lookupSize robocopyTree
  rw [List.find?_append, find?_rel_of_nodup source f hnd hf]
  simp

theorem filter_needsCopy_after (source : List SrcFile)
    (tape : List (String × Nat)) (hnd : (source.map SrcFile.rel).Nodup) :
    source.filter (needsCopy (robocopyTree source tape).1) = [] :=
  List.filter_eq_nil_iff.mpr (fun f hf => by
    simp [needsCopy_after_transfer source tape f hnd hf])

theorem bytes_after_transfer (source : List SrcFile)
    (tape : List (String × Nat)) (hnd : (source.map SrcFile.rel).Nodup) :
    (robocopyTree source (robocopyTree source tape).1).2 = 0 := by
  show (List.map (fun f => f.size)
    (source.filter (needsCopy (robocopyTree source tape).1))).sum = 0
  rw [filter_needsCopy_after source tape hnd]
  rfl

theorem foldl_packed_skip (root l n : String) (pm : List Meta)
    (h : ∀ m ∈ pm, m.is_packed = false) :
    ∀ d : DB, pm.foldl (fun d m =>
      if m.is_packed then
        insertFile d m.file_name m.original_path m.file_size_bytes
          (m.file_hash.getD "") l true
          (some (pathJoin root (m.container_name.getD "")))
          m.stored_path n
      else d) d = d := by
  induction pm with
  | nil => intro d; rfl
  | cons m ms ih =>
    intro d
    rw [List.foldl_cons]
    rw [if_neg (by simp [h m (List.mem_cons_self m ms)])]
    exact ih (fun x hx => h x (List.mem_cons_of_mem m hx)) d

/-- C1 (amended): running the backup a second time against an unchanged
source (same tape, same packer metadata, distinct relative paths in the
walk) leaves the database exactly as the first run left it — zero new
FileRecords and no used_space increase — provided the packer metadata
carries no packed entries (direct mode, reused staging, or loose-only
metadata).  When the metadata does carry packed entries, the
reconciliation loop re-inserts one FileRecord per packed entry on every
run, so the as-stated claim fails (see the counterexample); used_space
is still not increased by the second run. -/
theorem backup_rerun_idempotent (source : List SrcFile) (root : String)
    (tape : List (String × Nat)) (l : String) (pm : Option (List Meta))
    (db : DB) (n1 n2 : String)
    (hnd : (source.map SrcFile.rel).Nodup)
    (hpm : ∀ ms, pm = some ms → ∀ m ∈ ms, m.is_packed = false) :
    (backupRun source root (backupRun source root tape l pm db n1).tape l pm
      (backupRun source root tape l pm db n1).db n2).db =
    (backupRun source root tape l pm db n1).db := by
  have htape : (backupRun source root tape l pm db n1).tape =
      (robocopyTree source tape).1 := rfl
  set db1 := (backupRun source root tape l pm db n1).db with hdb1
  rw [htape]
  have hfil := filter_needsCopy_after source tape hnd
  have hb := bytes_after_transfer source tape hnd
  cases pm with
  | none =>
    simp only [backupRun, hfil, hb, List.foldl_nil, Nat.lt_irrefl,
      if_false, gt_iff_lt]
  | some ms =>
    cases ms with
    | nil =>
      simp only [backupRun, hfil, hb, List.foldl_nil, Nat.lt_irrefl,
        if_false, gt_iff_lt]
    | cons m0 ms1 =>
      have hskip := foldl_packed_skip root l n2 (m0 :: ms1)
        (hpm (m0 :: ms1) rfl)
      simp only [backupRun, hfil, hb, List.foldl_nil, Nat.lt_irrefl,
        if_false, gt_iff_lt, hskip]

/-- Witness for C1: a direct re-backup of the one-file sample tree onto
the tape state the first run produced leaves the database of the first
run untouched. -/
theorem backup_rerun_idempotent_witness :
    (backupRun [sfSample] "R"
       (backupRun [sfSample] "R" [] "T1" none dbSample "t1").tape "T1" none
       (backupRun [sfSample] "R" [] "T1" none dbSample "t1").db "t2").db =
    (backupRun [sfSample] "R" [] "T1" none dbSample "t1").db :=
  backup_rerun_idempotent [sfSample] "R" [] "T1" none dbSample "t1" "t2"
    (by decide) (fun _ h => nomatch h)

/-- C1 counterexample: with the same non-empty packer metadata holding
one packed entry supplied to both runs over an unchanged (empty) source,
the first run inserts one FileRecord and the second run inserts another,
so the second run does not insert zero new FileRecords. -/
theorem backup_rerun_packed_counterexample :
    ((backupRun [] "R" [] "T1" (some [mPackedSample]) DB.empty
        "t1").db).files.length = 1 ∧
    ((backupRun [] "R"
        (backupRun [] "R" [] "T1" (some [mPackedSample]) DB.empty "t1").tape
        "T1" (some [mPackedSample])
        (backupRun [] "R" [] "T1" (some [mPackedSample]) DB.empty "t1").db
        "t2").db).files.length = 2 :=
  ⟨rfl, rfl⟩

end LTO
